import Mathlib

/-!
Verification of the temporal-security-scanner repository.

The Python source is shallowly embedded: dataclasses become structures,
the workflow main loop becomes a recursive function over the batched
resource list, signal delivery becomes an explicit boundary-indexed
parameter, and the choices made by the external substrate (per-item
activity outcomes) become function parameters.

`SecurityStatus` in the source is a StrEnum: members compare equal to
their plain string values, and the result fields are typed `str`.  We
therefore embed statuses as `String` constants.
-/

namespace Scanner

/-! ## models.py -/

/-- Values of the `SecurityStatus` StrEnum from models.py. -/
def SecurityStatus.ENABLED : String := "enabled"

def SecurityStatus.DISABLED : String := "disabled"

def SecurityStatus.NOT_CONFIGURED : String := "not configured"

def SecurityStatus.NO_ACCESS : String := "no access"

def SecurityStatus.UNKNOWN : String := "unknown"

def SecurityStatus.ERROR : String := "error"

/-- `RepoInfo` dataclass from models.py. -/
structure RepoInfo where
  name : String
  full_name : String
  private_repo : Bool := false
  archived : Bool := false
  deriving DecidableEq, Repr

/-- `RepoSecurityResult` dataclass from models.py.  The `scanned_at`
timestamp is filled by `__post_init__` from the wall clock; it is kept
as an opaque string here and is never read by the logic under proof. -/
structure RepoSecurityResult where
  repository : String
  secret_scanning : String := SecurityStatus.UNKNOWN
  dependabot_alerts : String := SecurityStatus.UNKNOWN
  code_scanning : String := SecurityStatus.UNKNOWN
  error : Option String := none
  scanned_at : String := ""
  deriving DecidableEq, Repr

/-- `RepoSecurityResult.is_fully_compliant` from models.py: all three
security features must be enabled. -/
def RepoSecurityResult.is_fully_compliant (r : RepoSecurityResult) : Bool :=
  r.secret_scanning == SecurityStatus.ENABLED
    && r.dependabot_alerts == SecurityStatus.ENABLED
    && r.code_scanning == SecurityStatus.ENABLED

/-- `ScanProgress` dataclass from models.py (the queryable progress). -/
structure ScanProgress where
  org : String
  total_repos : Nat := 0
  scanned_repos : Nat := 0
  compliant_repos : Nat := 0
  non_compliant_repos : Nat := 0
  errors : Nat := 0
  status : String := "starting"
  deriving DecidableEq, Repr

/-! ## activities.py: generate_report

The only numeric subtlety is Python's `f"{x:.1f}%"` on the float
`compliant / total * 100`.  We model it by exact rational rounding to
tenths with round-half-to-even (the rounding used by float formatting);
at every input exercised by the claims the value is exact in both
systems, so the two agree. -/

/-- Round `num / den` to the nearest integer, halves to even. -/
def roundHalfEven (num den : Nat) : Nat :=
  let q := num / den
  let r := num % den
  if 2 * r < den then q
  else if den < 2 * r then q + 1
  else if q % 2 == 0 then q else q + 1

/-- Render a number of tenths as a percent string with one decimal,
as Python's `f"{x:.1f}%"` does. -/
def tenthsString (t : Nat) : String :=
  toString (t / 10) ++ "." ++ toString (t % 10) ++ "%"

/-- The `compliance_rate` field of generate_report:
`f"{(compliant / total * 100):.1f}%" if total > 0 else "N/A"`. -/
def complianceRate (compliant total : Nat) : String :=
  if total > 0 then tenthsString (roundHalfEven (compliant * 1000) total)
  else "N/A"

/-- The summary dict built by `generate_report` in activities.py. -/
structure Report where
  org : String
  total_repos : Nat
  fully_compliant : Nat
  compliance_rate : String
  secret_scanning_enabled : Nat
  dependabot_enabled : Nat
  code_scanning_enabled : Nat
  errors : Nat
  non_compliant_repos : List String
  deriving DecidableEq, Repr

/-- `generate_report` from activities.py. -/
def generate_report (org : String) (results : List RepoSecurityResult) : Report :=
  { org := org
    total_repos := results.length
    fully_compliant := (results.filter (fun r => r.is_fully_compliant)).length
    compliance_rate :=
      complianceRate (results.filter (fun r => r.is_fully_compliant)).length results.length
    secret_scanning_enabled :=
      (results.filter (fun r => r.secret_scanning == SecurityStatus.ENABLED)).length
    dependabot_enabled :=
      (results.filter (fun r => r.dependabot_alerts == SecurityStatus.ENABLED)).length
    code_scanning_enabled :=
      (results.filter (fun r => r.code_scanning == SecurityStatus.ENABLED)).length
    errors := (results.filter (fun r => r.error.isSome)).length
    non_compliant_repos :=
      ((results.filter (fun r => !r.is_fully_compliant && r.error.isNone)).map
        (fun r => r.repository)) }

/-! ## workflows.py: SecurityScanWorkflow

The workflow is deterministic given (a) the repository list returned by
`fetch_org_repos`, (b) the resolved outcome of each `check_repo_security`
activity (a result, or an exception after the substrate exhausted its
retries), and (c) the boundary at which a `cancel_scan` signal becomes
visible.  Signals are processed at workflow-task boundaries; the loop
reads the flag once per batch, so delivery is modelled by the index of
the first loop boundary at which the flag is set. -/

/-- `BATCH_SIZE` from workflows.py. -/
def BATCH_SIZE : Nat := 10

/-- The resolved outcome of one `check_repo_security` activity as seen by
`asyncio.gather(..., return_exceptions=True)`: either a result or an
exception (after the retry policy gave up). -/
inductive BatchItem
  | ok (r : RepoSecurityResult)
  | failed
  deriving DecidableEq, Repr

/-- The workflow instance attributes set in `__init__` and mutated by
`run` and the `cancel_scan` signal handler. -/
structure WfState where
  progress : ScanProgress
  results : List RepoSecurityResult
  cancel_requested : Bool := false
  cancel_reason : String := ""
  deriving DecidableEq, Repr

/-- One iteration of the result-merging loop in `run`
(`for result in batch_results:`). -/
def mergeItem (s : WfState) (it : BatchItem) : WfState :=
  match it with
  | .failed =>
      { s with progress := { s.progress with errors := s.progress.errors + 1 } }
  | .ok r =>
      let p := s.progress
      let p :=
        if r.is_fully_compliant then
          { p with scanned_repos := p.scanned_repos + 1,
                   compliant_repos := p.compliant_repos + 1 }
        else
          { p with scanned_repos := p.scanned_repos + 1,
                   non_compliant_repos := p.non_compliant_repos + 1 }
      { s with results := s.results ++ [r], progress := p }

/-- Merging one gathered batch into the workflow state. -/
def processBatch (s : WfState) (b : List BatchItem) : WfState :=
  b.foldl mergeItem s

/-- Merging a sequence of batches (no cancellation check). -/
def processBatches (s : WfState) (bs : List (List BatchItem)) : WfState :=
  bs.foldl processBatch s

/-- Helper for `chunks`: `acc` is the current chunk reversed, `cap` the
remaining capacity of the current chunk. -/
def chunksAux (n : Nat) : List α → List α → Nat → List (List α)
  | [], acc, _ => if acc.isEmpty then [] else [acc.reverse]
  | x :: xs, acc, 0 => acc.reverse :: chunksAux n xs [x] (n - 1)
  | x :: xs, acc, cap + 1 => chunksAux n xs (x :: acc) cap

/-- `repos[batch_start : batch_start + BATCH_SIZE]` for
`batch_start in range(0, len(repos), BATCH_SIZE)`: the list sliced into
chunks of size `n` (the last one possibly shorter). -/
def chunks (n : Nat) (l : List α) : List (List α) :=
  chunksAux n l [] n

/-- Delivery of the `cancel_scan` signal: from boundary `k` on, the
handler has run, setting `_cancel_requested` and `_cancel_reason`. -/
def deliverCancel (cancelAt : Option (Nat × String)) (i : Nat) (s : WfState) : WfState :=
  match cancelAt with
  | none => s
  | some (k, reason) =>
      if k ≤ i ∧ !s.cancel_requested then
        { s with cancel_requested := true, cancel_reason := reason }
      else s

/-- The batch loop of `run` (step 2 in workflows.py): check the cancel
flag, break with status `cancelled` if set, otherwise gather the batch,
merge its results, and continue. -/
def scanLoop (cancelAt : Option (Nat × String)) :
    WfState → List (List BatchItem) → Nat → WfState
  | s, [], _ => s
  | s, b :: rest, i =>
      let s1 := deliverCancel cancelAt i s
      if s1.cancel_requested then
        { s1 with progress := { s1.progress with status := "cancelled" } }
      else
        scanLoop cancelAt (processBatch s1 b) rest (i + 1)

/-- The states of the workflow visible at loop boundaries (the points
where queries and signal effects are observable), ending with the loop
exit state. -/
def scanLoopTrace (cancelAt : Option (Nat × String)) :
    WfState → List (List BatchItem) → Nat → List WfState
  | s, [], _ => [s]
  | s, b :: rest, i =>
      let s1 := deliverCancel cancelAt i s
      if s1.cancel_requested then
        [s1, { s1 with progress := { s1.progress with status := "cancelled" } }]
      else
        s1 :: scanLoopTrace cancelAt (processBatch s1 b) rest (i + 1)

/-- The workflow state after `fetch_org_repos` returns:
`total_repos := len(repos)`, `status := "scanning"`. -/
def initState (org : String) (repos : List RepoInfo) : WfState :=
  { progress := { org := org, total_repos := repos.length, status := "scanning" }
    results := [] }

/-- The per-batch activity outcomes: each batch of repos is dispatched
with `check_repo_security(org, repo.name, token)`, whose resolved
outcome is `outcome repo.name`. -/
def batchesOf (repos : List RepoInfo) (outcome : String → BatchItem) :
    List (List BatchItem) :=
  (chunks BATCH_SIZE repos).map (fun b => b.map (fun r => outcome r.name))

/-- The dict returned by `run`: the `generate_report` summary, enriched
with cancellation metadata when `_cancel_requested` is set. -/
structure FinalReport where
  summary : Report
  cancelled : Option Bool := none
  cancel_reason : Option String := none
  repos_scanned_before_cancel : Option Nat := none
  deriving DecidableEq, Repr

/-- The whole of `SecurityScanWorkflow.run` after the fetch step: the
batch loop, the status update, the `generate_report` activity and the
report enrichment.  The final `deliverCancel` models a signal landing
after the loop but before the run returns (the handler-drain wait);
it can still enrich the report but no longer changes the status. -/
def runScan (org : String) (repos : List RepoInfo) (outcome : String → BatchItem)
    (cancelAt : Option (Nat × String)) : FinalReport × WfState :=
  let bs := batchesOf repos outcome
  let s1 := scanLoop cancelAt (initState org repos) bs 0
  let s2 :=
    if s1.progress.status ≠ "cancelled" then
      { s1 with progress := { s1.progress with status := "completed" } }
    else s1
  let s3 := deliverCancel cancelAt bs.length s2
  let base := generate_report org s3.results
  let rep :=
    if s3.cancel_requested then
      { summary := base
        cancelled := some true
        cancel_reason := some s3.cancel_reason
        repos_scanned_before_cancel := some s3.progress.scanned_repos : FinalReport }
    else { summary := base }
  (rep, s3)

/-- Every observable state of a run: the loop-boundary states plus the
state at return time. -/
def runStates (org : String) (repos : List RepoInfo) (outcome : String → BatchItem)
    (cancelAt : Option (Nat × String)) : List WfState :=
  scanLoopTrace cancelAt (initState org repos) (batchesOf repos outcome) 0
    ++ [(runScan org repos outcome cancelAt).2]

/-- Total number of work items in a batch list. -/
def itemCount (bs : List (List BatchItem)) : Nat :=
  bs.flatten.length

/-- The scan-derived content of a workflow state: accumulated results
and counters (everything except control flags and the status string). -/
def coreOf (s : WfState) :
    List RepoSecurityResult × Nat × Nat × Nat × Nat :=
  (s.results, s.progress.scanned_repos, s.progress.compliant_repos,
   s.progress.non_compliant_repos, s.progress.errors)

/-- The successful results of a batch, in dispatch order. -/
def successResults (b : List BatchItem) : List RepoSecurityResult :=
  b.filterMap (fun it => match it with | .ok r => some r | .failed => none)

/-! ## tests/test_workflow.py: the mock five-repo scenario -/

/-- `MOCK_REPOS` from tests/test_workflow.py. -/
def MOCK_REPOS : List RepoInfo :=
  [ { name := "repo-a", full_name := "test-org/repo-a" }
  , { name := "repo-b", full_name := "test-org/repo-b" }
  , { name := "repo-c", full_name := "test-org/repo-c" }
  , { name := "repo-d", full_name := "test-org/repo-d" }
  , { name := "repo-e", full_name := "test-org/repo-e" } ]

/-- `mock_check_repo_security` from tests/test_workflow.py: repo-a and
repo-b fully compliant, repo-e partial with the error field set, the
rest secret-scanning only. -/
def mock_check_repo_security (repo_name : String) : RepoSecurityResult :=
  if repo_name = "repo-a" ∨ repo_name = "repo-b" then
    { repository := repo_name
      secret_scanning := SecurityStatus.ENABLED
      dependabot_alerts := SecurityStatus.ENABLED
      code_scanning := SecurityStatus.ENABLED }
  else if repo_name = "repo-e" then
    { repository := repo_name
      secret_scanning := SecurityStatus.ENABLED
      dependabot_alerts := SecurityStatus.DISABLED
      code_scanning := SecurityStatus.NOT_CONFIGURED
      error := some "Partial scan" }
  else
    { repository := repo_name
      secret_scanning := SecurityStatus.ENABLED
      dependabot_alerts := SecurityStatus.DISABLED
      code_scanning := SecurityStatus.NOT_CONFIGURED }

/-- The activity outcomes of the mock environment: every check succeeds
with the mock result. -/
def mockOutcome (repo_name : String) : BatchItem :=
  .ok (mock_check_repo_security repo_name)

/-! ## workflows.py: the retry policy, and the error classification of
activities.py -/

/-- The retry-policy parameters, as in `temporalio.common.RetryPolicy`.
Intervals are in seconds; the backoff coefficient in the source is the
float `2.0`, which is exactly the natural number 2. -/
structure RetryPolicy where
  initial_interval_secs : Nat
  backoff_coefficient : Nat
  maximum_interval_secs : Nat
  maximum_attempts : Nat
  non_retryable_error_types : List String
  deriving DecidableEq, Repr

/-- `GITHUB_API_RETRY` from workflows.py. -/
def GITHUB_API_RETRY : RetryPolicy :=
  { initial_interval_secs := 2
    backoff_coefficient := 2
    maximum_interval_secs := 60
    maximum_attempts := 5
    non_retryable_error_types := ["ValueError"] }

/-- The substrate's classification rule: an error is retried unless its
type name is listed in `non_retryable_error_types`; every unlisted
(unclassified) type defaults to retryable. -/
def isRetryable (p : RetryPolicy) (errorType : String) : Bool :=
  !(p.non_retryable_error_types.contains errorType)

/-- The error type raised by `fetch_org_repos` (activities.py) for each
HTTP response: 404 and 401 raise `ValueError` (bad input), 403 with a
rate-limit body raises `RuntimeError` (transient), any other error
status propagates out of `raise_for_status` as an `ApplicationError`
(retryable by default), and success statuses raise nothing. -/
def fetchErrorType (statusCode : Nat) (bodyMentionsRateLimit : Bool) : Option String :=
  if statusCode = 404 then some "ValueError"
  else if statusCode = 401 then some "ValueError"
  else if statusCode = 403 ∧ bodyMentionsRateLimit then some "RuntimeError"
  else if 400 ≤ statusCode then some "ApplicationError"
  else none

/-! ## Invariant definitions used by the theorems -/

/-- The counter invariant, strengthened with the number of still-pending
work items. -/
def InvP (s : WfState) (pending : Nat) : Prop :=
  s.progress.scanned_repos = s.progress.compliant_repos + s.progress.non_compliant_repos
  ∧ s.progress.scanned_repos + s.progress.errors + pending ≤ s.progress.total_repos

/-- The observable counter invariant of claim C2. -/
def Inv (s : WfState) : Prop :=
  s.progress.scanned_repos = s.progress.compliant_repos + s.progress.non_compliant_repos
  ∧ s.progress.scanned_repos + s.progress.errors ≤ s.progress.total_repos

end Scanner

namespace SpecModel

/-!
## Control-plane features absent from src/

starter.py and demo_runner.py signal `SecurityScanWorkflow.pause_scan`,
call the update handler `SecurityScanWorkflow.update_batch_size`, and
read `progress.batch_size`, `progress.timer_active` and
`progress.continuation_count`, and the printed report carries a
`continue_as_new_count` key — but the workflow file under src/ defines
none of these.  The handlers and the continuation manager are therefore
modelled here from the spec (sections 4.1, 4.3 and 4.5), against the
caller evidence for the message texts and report keys.
-/

open Scanner in
/-- The orchestrator-owned scan state visible to the control-plane
handlers (spec section 3 ScanState, restricted to the fields the
modelled handlers read or write, plus the counters which a rejected
request must leave untouched). -/
structure OrchState where
  batch_size : Int
  status : String
  pause_requested : Bool
  pause_duration_secs : Int
  scanned_repos : Nat
  compliant_repos : Nat
  non_compliant_repos : Nat
  errors : Nat
  total_repos : Nat
  deriving DecidableEq, Repr

/-- The terminal statuses (spec section 4.1). -/
def TERMINAL_STATUSES : List String := ["completed", "cancelled", "failed"]

/-- Outcome of an update as seen by the blocked caller. -/
inductive UpdateOutcome
  | accepted (confirmation : String)
  | rejected (err : String)
  deriving DecidableEq, Repr

/-- Modelled from the spec: the `updateBatchSize` update handler and its
validator, which are not in src/ (only their callers in starter.py and
demo_runner.py are).  Spec section 4.3: run the validator strictly
before any mutation; reject when `n < 1`, `n > 50`, or the status is
terminal, leaving all state untouched and returning a descriptive error
to the synchronously waiting caller; otherwise set `batchSize := n` and
return a confirmation string.  (The spec's remaining rejection case,
`n` not an integer, is ruled out here by the input type, as it is by
the handler's `int` annotation at deserialization time.)  The error
texts follow the substrings starter.py matches on ("Batch size must
be", "Cannot update"). -/
def update_batch_size (s : OrchState) (n : Int) : UpdateOutcome × OrchState :=
  if n < 1 ∨ 50 < n then
    (.rejected ("Batch size must be between 1 and 50, got " ++ toString n), s)
  else if s.status ∈ TERMINAL_STATUSES then
    (.rejected ("Cannot update a " ++ s.status ++ " scan"), s)
  else
    (.accepted ("Batch size updated to " ++ toString n), { s with batch_size := n })

/-- Modelled from the spec: the `pause` signal handler (spec section
4.3), not in src/: sets `pauseRequested` and stores the duration
clamped to at least 1 second. -/
def pause_scan (s : OrchState) (durationSecs : Int) : OrchState :=
  { s with pause_requested := true, pause_duration_secs := max 1 durationSecs }

/-- Observable effects of the orchestrator main loop. -/
inductive Event
  | statusSet (st : String)
  | timerStarted (secs : Int)
  | timerFired
  | batchMerged (size : Nat)
  deriving DecidableEq, Repr

/-- Modelled from the spec: the pause branch of the main loop (spec
section 4.1 step 2), not in src/: set status PAUSED, start a durable
timer for `pauseDurationSeconds`, suspend until it fires, then clear
the pause flag and resume SCANNING. -/
def pauseStep (s : OrchState) : OrchState × List Event :=
  ({ s with pause_requested := false, status := "scanning" },
   [ .statusSet "paused", .timerStarted s.pause_duration_secs, .timerFired,
     .statusSet "scanning" ])

open Scanner in
/-- Merging one completed batch into the counters (spec section 4.1
step 4, matching the merge loop of workflows.py). -/
def mergeCounts (s : OrchState) (b : List BatchItem) : OrchState :=
  { s with
      scanned_repos := s.scanned_repos + (successResults b).length
      compliant_repos := s.compliant_repos
        + ((successResults b).filter (fun r => r.is_fully_compliant)).length
      non_compliant_repos := s.non_compliant_repos
        + ((successResults b).filter (fun r => !r.is_fully_compliant)).length
      errors := s.errors + (b.length - (successResults b).length) }

/-- Delivery of a single `pause` signal: at loop boundary `k` the
handler runs with the requested duration. -/
def deliverPause (pauseAt : Option (Nat × Int)) (i : Nat) (s : OrchState) : OrchState :=
  match pauseAt with
  | none => s
  | some (k, d) => if k = i then pause_scan s d else s

open Scanner in
/-- Modelled from the spec: the main loop of section 4.1 restricted to
the pause branch and the batch step (cancellation is the src-backed
`Scanner.scanLoop`; the checkpoint branch is `contRun` below).  At each
boundary: deliver any pending pause signal, handle a requested pause
(emitting the pause/timer events), then dispatch and merge the next
batch. -/
def specLoop (pauseAt : Option (Nat × Int)) :
    OrchState → List (List BatchItem) → Nat → OrchState × List Event
  | s, [], _ => (s, [])
  | s, b :: rest, i =>
      let s0 := deliverPause pauseAt i s
      let sp := if s0.pause_requested then pauseStep s0 else (s0, [])
      let s2 := mergeCounts sp.1 b
      let out := specLoop pauseAt s2 rest (i + 1)
      (out.1, sp.2 ++ (.batchMerged b.length :: out.2))

open Scanner in
/-- Modelled from the spec: the checkpoint / continue-as-new manager
(spec section 4.5), not in src/.  `thr` is the configured threshold on
substrate-tracked work units (batches) since the last restart.  At a
batch boundary with work remaining, once the count since the last
restart reaches the threshold, the accumulated results, error count and
remaining batches are packaged and a fresh run (empty history, counter
reset, `continuationCount + 1`) takes over; otherwise the next batch is
merged.  Returns (accumulated results, error count, continuation
count). -/
def contRun (thr : Nat) :
    Nat → Nat → List RepoSecurityResult → Nat →
      List (List BatchItem) → List RepoSecurityResult × Nat × Nat
  | cc, _, acc, errs, [] => (acc, errs, cc)
  | cc, since, acc, errs, b :: rest =>
      if thr ≤ since + 1 ∧ rest ≠ [] then
        contRun thr (cc + 1) 0 (acc ++ successResults b)
          (errs + (b.length - (successResults b).length)) rest
      else
        contRun thr cc (since + 1) (acc ++ successResults b)
          (errs + (b.length - (successResults b).length)) rest

open Scanner in
/-- The final report of a (possibly continuing) scan: the
`generate_report` summary over all accumulated results, plus the
`continue_as_new_count` key that starter.py's `_print_report` and
demo_runner.py read from the workflow result. -/
structure ContReport where
  summary : Report
  continue_as_new_count : Nat
  deriving DecidableEq, Repr

open Scanner in
/-- Run a scan whose continuation threshold is `thr` over the given
batches and produce its final report. -/
def contReport (org : String) (thr : Nat) (bs : List (List BatchItem)) : ContReport :=
  let out := contRun thr 0 0 [] 0 bs
  { summary := generate_report org out.1, continue_as_new_count := out.2.2 }

/-- A concrete mid-scan orchestrator state, used by witnesses. -/
def demoOrchState : OrchState :=
  { batch_size := 10
    status := "scanning"
    pause_requested := false
    pause_duration_secs := 0
    scanned_repos := 3
    compliant_repos := 1
    non_compliant_repos := 2
    errors := 0
    total_repos := 5 }

end SpecModel

namespace Encryption

/-!
## encryption.py: EncryptionCodec

A payload is modelled by its data bytes and the `"encoding"` entry of
its metadata map (the only metadata the codec consults; the full
payload, metadata included, rides through the abstract protobuf
serialization).  Bytes are lists of naturals.  Fernet
encryption/decryption under one key and protobuf
SerializeToString/ParseFromString are external-library collaborators:
they are parameters constrained only by their documented left-inverse
laws. -/

/-- A Temporal payload: the `"encoding"` metadata entry and the data
bytes. -/
structure Payload where
  encoding : List Nat
  data : List Nat
  deriving DecidableEq, Repr

/-- `ENCODING_KEY = b"binary/encrypted"` from encryption.py, as
bytes. -/
def ENCODING_MARKER : List Nat :=
  "binary/encrypted".toList.map Char.toNat

/-- `EncryptionCodec.encode`: every payload is serialized, encrypted,
and wrapped in a fresh payload marked `binary/encrypted`. -/
def codecEncode (encrypt : List Nat → List Nat) (serialize : Payload → List Nat)
    (payloads : List Payload) : List Payload :=
  payloads.map (fun p => { encoding := ENCODING_MARKER, data := encrypt (serialize p) })

/-- `EncryptionCodec.decode`: payloads carrying the marker are
decrypted and parsed back; all others pass through unchanged. -/
def codecDecode (decrypt : List Nat → List Nat) (parse : List Nat → Payload)
    (payloads : List Payload) : List Payload :=
  payloads.map (fun p =>
    if p.encoding = ENCODING_MARKER then parse (decrypt p.data) else p)

/-- A concrete encryption for witnesses: prepend a byte. -/
def encrypt0 (b : List Nat) : List Nat := 7 :: b

/-- The matching decryption: drop the prepended byte. -/
def decrypt0 (b : List Nat) : List Nat := b.tail

/-- A concrete injective serialization for witnesses: the marker length
followed by marker bytes and data bytes. -/
def serialize0 (p : Payload) : List Nat :=
  p.encoding.length :: (p.encoding ++ p.data)

/-- The matching parse. -/
def parse0 (b : List Nat) : Payload :=
  match b with
  | [] => { encoding := [], data := [] }
  | n :: rest => { encoding := rest.take n, data := rest.drop n }

end Encryption

namespace Scanner

/-! ## Helper lemmas -/

theorem chunksAux_flatten (n : Nat) :
    ∀ (l acc : List α) (cap : Nat),
      (chunksAux n l acc cap).flatten = acc.reverse ++ l
  | [], acc, cap => by
      by_cases h : acc.isEmpty
      · rw [List.isEmpty_iff] at h
        simp [chunksAux, h]
      · rw [Bool.not_eq_true] at h
        simp [chunksAux, h]
  | x :: xs, acc, 0 => by
      simp [chunksAux, chunksAux_flatten n xs [x] (n - 1)]
  | x :: xs, acc, cap + 1 => by
      simp [chunksAux, chunksAux_flatten n xs (x :: acc) cap]

theorem chunks_flatten (n : Nat) (l : List α) : (chunks n l).flatten = l := by
  simp [chunks, chunksAux_flatten]

theorem flatten_map_map_length (f : α → β) :
    ∀ L : List (List α), ((L.map (List.map f)).flatten).length = L.flatten.length
  | [] => by simp
  | b :: L => by simp [flatten_map_map_length f L]

theorem itemCount_batchesOf (repos : List RepoInfo) (outcome : String → BatchItem) :
    itemCount (batchesOf repos outcome) = repos.length := by
  have h := flatten_map_map_length (fun r : RepoInfo => outcome r.name)
    (chunks BATCH_SIZE repos)
  simp only [itemCount, batchesOf]
  rw [h, chunks_flatten]

theorem itemCount_cons (b : List BatchItem) (bs : List (List BatchItem)) :
    itemCount (b :: bs) = b.length + itemCount bs := by
  simp [itemCount]

theorem itemCount_append (bs cs : List (List BatchItem)) :
    itemCount (bs ++ cs) = itemCount bs + itemCount cs := by
  simp [itemCount]

theorem mergeItem_cancel_requested (s : WfState) (it : BatchItem) :
    (mergeItem s it).cancel_requested = s.cancel_requested := by
  cases it <;> simp [mergeItem]

theorem processBatch_cancel_requested :
    ∀ (b : List BatchItem) (s : WfState),
      (processBatch s b).cancel_requested = s.cancel_requested
  | [], s => rfl
  | it :: b, s => by
      show (processBatch (mergeItem s it) b).cancel_requested = _
      rw [processBatch_cancel_requested b, mergeItem_cancel_requested]

theorem deliverCancel_some_eq (k : Nat) (reason : String) (i : Nat) (s : WfState) :
    deliverCancel (some (k, reason)) i s =
      if k ≤ i ∧ (!s.cancel_requested) = true then
        { s with cancel_requested := true, cancel_reason := reason }
      else s := rfl

theorem deliverCancel_progress (c : Option (Nat × String)) (i : Nat) (s : WfState) :
    (deliverCancel c i s).progress = s.progress := by
  cases c with
  | none => rfl
  | some kv =>
      obtain ⟨k, reason⟩ := kv
      rw [deliverCancel_some_eq]
      by_cases hcond : k ≤ i ∧ (!s.cancel_requested) = true
      · rw [if_pos hcond]
      · rw [if_neg hcond]

theorem deliverCancel_results (c : Option (Nat × String)) (i : Nat) (s : WfState) :
    (deliverCancel c i s).results = s.results := by
  cases c with
  | none => rfl
  | some kv =>
      obtain ⟨k, reason⟩ := kv
      rw [deliverCancel_some_eq]
      by_cases hcond : k ≤ i ∧ (!s.cancel_requested) = true
      · rw [if_pos hcond]
      · rw [if_neg hcond]

theorem deliverCancel_eq_of_not_requested (c : Option (Nat × String)) (i : Nat)
    (s : WfState) (h : (deliverCancel c i s).cancel_requested = false) :
    deliverCancel c i s = s := by
  cases c with
  | none => rfl
  | some kv =>
      obtain ⟨k, reason⟩ := kv
      rw [deliverCancel_some_eq] at h ⊢
      by_cases hcond : k ≤ i ∧ (!s.cancel_requested) = true
      · rw [if_pos hcond] at h
        exact absurd h (by simp)
      · rw [if_neg hcond]

theorem InvP_to_Inv {s : WfState} {pending : Nat} (h : InvP s pending) : Inv s := by
  unfold InvP at h
  unfold Inv
  omega

theorem InvP_of_progress_eq {s t : WfState} {pending : Nat}
    (hp : s.progress = t.progress) (h : InvP s pending) : InvP t pending := by
  unfold InvP at h ⊢
  rw [hp] at h
  exact h

theorem Inv_of_progress_counters {s t : WfState}
    (h1 : t.progress.scanned_repos = s.progress.scanned_repos)
    (h2 : t.progress.compliant_repos = s.progress.compliant_repos)
    (h3 : t.progress.non_compliant_repos = s.progress.non_compliant_repos)
    (h4 : t.progress.errors = s.progress.errors)
    (h5 : t.progress.total_repos = s.progress.total_repos)
    (h : Inv s) : Inv t := by
  unfold Inv at h ⊢
  omega

theorem mergeItem_invP {s : WfState} {pending : Nat} (it : BatchItem)
    (h : InvP s (pending + 1)) : InvP (mergeItem s it) pending := by
  unfold InvP at h
  cases it with
  | failed =>
      simp only [mergeItem, InvP]
      omega
  | ok r =>
      by_cases hc : r.is_fully_compliant <;>
        simp only [mergeItem, InvP, hc, if_true, if_false, Bool.false_eq_true] <;>
        omega

theorem processBatch_invP :
    ∀ (b : List BatchItem) (s : WfState) (pending : Nat),
      InvP s (pending + b.length) → InvP (processBatch s b) pending
  | [], s, pending, h => by simpa [processBatch] using h
  | it :: b, s, pending, h => by
      rw [List.length_cons] at h
      have h1 : InvP s (pending + b.length + 1) := by
        have e : pending + (b.length + 1) = pending + b.length + 1 := by omega
        rwa [e] at h
      have h2 := mergeItem_invP it h1
      have h3 := processBatch_invP b (mergeItem s it) pending h2
      simpa [processBatch] using h3

theorem processBatches_invP :
    ∀ (bs : List (List BatchItem)) (s : WfState) (pending : Nat),
      InvP s (pending + itemCount bs) → InvP (processBatches s bs) pending
  | [], s, pending, h => by simpa [processBatches, itemCount] using h
  | b :: bs, s, pending, h => by
      rw [itemCount_cons] at h
      have h1 : InvP s (pending + itemCount bs + b.length) := by
        have e : pending + (b.length + itemCount bs) = pending + itemCount bs + b.length := by
          omega
        rwa [e] at h
      have h2 := processBatch_invP b s (pending + itemCount bs) h1
      have h3 := processBatches_invP bs (processBatch s b) pending h2
      simpa [processBatches] using h3

theorem scanLoopTrace_inv (cancelAt : Option (Nat × String)) :
    ∀ (bs : List (List BatchItem)) (s : WfState) (i : Nat),
      InvP s (itemCount bs) → ∀ t ∈ scanLoopTrace cancelAt s bs i, Inv t
  | [], s, i, h, t, ht => by
      simp [scanLoopTrace] at ht
      subst ht
      exact InvP_to_Inv h
  | b :: rest, s, i, h, t, ht => by
      have hP : InvP (deliverCancel cancelAt i s) (itemCount (b :: rest)) :=
        InvP_of_progress_eq (deliverCancel_progress cancelAt i s).symm h
      by_cases hc : (deliverCancel cancelAt i s).cancel_requested
      · simp only [scanLoopTrace, hc, if_true, List.mem_cons, List.mem_singleton,
          List.not_mem_nil, or_false] at ht
        rcases ht with rfl | rfl
        · exact InvP_to_Inv hP
        · exact Inv_of_progress_counters rfl rfl rfl rfl rfl (InvP_to_Inv hP)
      · simp only [scanLoopTrace, hc, if_false, Bool.false_eq_true, List.mem_cons] at ht
        rcases ht with rfl | ht
        · exact InvP_to_Inv hP
        · rw [itemCount_cons] at hP
          have h1 : InvP (deliverCancel cancelAt i s) (itemCount rest + b.length) := by
            have e : b.length + itemCount rest = itemCount rest + b.length := by omega
            rwa [e] at hP
          have h2 := processBatch_invP b (deliverCancel cancelAt i s) (itemCount rest) h1
          exact scanLoopTrace_inv cancelAt rest _ (i + 1) h2 t ht

theorem scanLoop_mem_trace (cancelAt : Option (Nat × String)) :
    ∀ (bs : List (List BatchItem)) (s : WfState) (i : Nat),
      scanLoop cancelAt s bs i ∈ scanLoopTrace cancelAt s bs i
  | [], s, i => by simp [scanLoop, scanLoopTrace]
  | b :: rest, s, i => by
      by_cases hc : (deliverCancel cancelAt i s).cancel_requested
      · simp [scanLoop, scanLoopTrace, hc]
      · simp only [scanLoop, scanLoopTrace, hc, if_false, Bool.false_eq_true,
          List.mem_cons]
        exact Or.inr (scanLoop_mem_trace cancelAt rest _ (i + 1))

theorem coreOf_deliverCancel (c : Option (Nat × String)) (i : Nat) (s : WfState) :
    coreOf (deliverCancel c i s) = coreOf s := by
  unfold coreOf
  rw [deliverCancel_progress, deliverCancel_results]

theorem processBatches_cons (s : WfState) (b : List BatchItem)
    (bs : List (List BatchItem)) :
    processBatches s (b :: bs) = processBatches (processBatch s b) bs := rfl

theorem scanLoop_cons (cancelAt : Option (Nat × String)) (s : WfState)
    (b : List BatchItem) (rest : List (List BatchItem)) (i : Nat) :
    scanLoop cancelAt s (b :: rest) i =
      if (deliverCancel cancelAt i s).cancel_requested then
        { deliverCancel cancelAt i s with
            progress := { (deliverCancel cancelAt i s).progress with status := "cancelled" } }
      else
        scanLoop cancelAt (processBatch (deliverCancel cancelAt i s) b) rest (i + 1) := rfl

theorem scanLoop_core_take (cancelAt : Option (Nat × String)) :
    ∀ (bs : List (List BatchItem)) (s : WfState) (i : Nat),
      ∃ j, j ≤ bs.length ∧
        coreOf (scanLoop cancelAt s bs i) = coreOf (processBatches s (bs.take j))
  | [], s, i => ⟨0, by simp [scanLoop, processBatches]⟩
  | b :: rest, s, i => by
      by_cases hc : (deliverCancel cancelAt i s).cancel_requested
      · refine ⟨0, by simp, ?_⟩
        rw [scanLoop_cons, if_pos hc]
        simp [coreOf, deliverCancel_progress, deliverCancel_results, processBatches]
      · have heq : deliverCancel cancelAt i s = s :=
          deliverCancel_eq_of_not_requested cancelAt i s (by simpa using hc)
        obtain ⟨j, hj, hcore⟩ := scanLoop_core_take cancelAt rest (processBatch s b) (i + 1)
        refine ⟨j + 1, by simpa using hj, ?_⟩
        rw [scanLoop_cons, if_neg hc, heq, List.take_succ_cons, processBatches_cons]
        exact hcore

theorem scanLoop_cancels (k : Nat) (reason : String) :
    ∀ (bs : List (List BatchItem)) (s : WfState) (i : Nat),
      s.cancel_requested = false → i ≤ k → k < i + bs.length →
      scanLoop (some (k, reason)) s bs i =
        { processBatches s (bs.take (k - i)) with
            cancel_requested := true
            cancel_reason := reason
            progress :=
              { (processBatches s (bs.take (k - i))).progress with status := "cancelled" } }
  | [], s, i, hreq, hik, hlt => by
      exfalso
      simp at hlt
      omega
  | b :: rest, s, i, hreq, hik, hlt => by
      by_cases hki : k ≤ i
      · have hk : k = i := Nat.le_antisymm hki hik
        have hfire : k ≤ i ∧ (!s.cancel_requested) = true := ⟨hki, by simp [hreq]⟩
        have hd : deliverCancel (some (k, reason)) i s =
            { s with cancel_requested := true, cancel_reason := reason } := by
          rw [deliverCancel_some_eq, if_pos hfire]
        have htake : k - i = 0 := by omega
        simp only [scanLoop, hd, htake, List.take_zero]
        rfl
      · have hstep : deliverCancel (some (k, reason)) i s = s := by
          rw [deliverCancel_some_eq, if_neg]
          intro hcontra
          exact hki hcontra.1
        have hflag : (processBatch s b).cancel_requested = false := by
          rw [processBatch_cancel_requested, hreq]
        have hik1 : i + 1 ≤ k := by omega
        have hlt1 : k < (i + 1) + rest.length := by
          simp at hlt
          omega
        have ih := scanLoop_cancels k reason rest (processBatch s b) (i + 1) hflag hik1 hlt1
        have htake : (b :: rest).take (k - i) = b :: rest.take (k - (i + 1)) := by
          have h1 : k - i = (k - (i + 1)) + 1 := by omega
          rw [h1, List.take_succ_cons]
        simp only [scanLoop, hstep, hreq, if_false, Bool.false_eq_true]
        rw [htake, processBatches_cons]
        exact ih

theorem Inv_of_progress_eq {s t : WfState} (hp : t.progress = s.progress)
    (h : Inv s) : Inv t := by
  unfold Inv at h ⊢
  rw [hp]
  exact h

theorem deliverCancel_of_requested (c : Option (Nat × String)) (i : Nat)
    (s : WfState) (h : s.cancel_requested = true) : deliverCancel c i s = s := by
  cases c with
  | none => rfl
  | some kv =>
      obtain ⟨k, reason⟩ := kv
      rw [deliverCancel_some_eq, if_neg]
      intro hcontra
      rw [h] at hcontra
      simp at hcontra

theorem runScan_snd (org : String) (repos : List RepoInfo)
    (outcome : String → BatchItem) (cancelAt : Option (Nat × String)) :
    (runScan org repos outcome cancelAt).2 =
      deliverCancel cancelAt (batchesOf repos outcome).length
        (if (scanLoop cancelAt (initState org repos) (batchesOf repos outcome) 0).progress.status
            ≠ "cancelled" then
          { scanLoop cancelAt (initState org repos) (batchesOf repos outcome) 0 with
              progress :=
                { (scanLoop cancelAt (initState org repos)
                    (batchesOf repos outcome) 0).progress with status := "completed" } }
        else scanLoop cancelAt (initState org repos) (batchesOf repos outcome) 0) := rfl

theorem initState_invP (org : String) (repos : List RepoInfo)
    (outcome : String → BatchItem) :
    InvP (initState org repos) (itemCount (batchesOf repos outcome)) := by
  unfold InvP initState
  simp [itemCount_batchesOf]

/-! ## Claim theorems -/

/-- C1: for every `RepoSecurityResult`, `is_fully_compliant` holds iff
all three sub-statuses (secret scanning, Dependabot alerts, code
scanning) equal ENABLED; any UNKNOWN, DISABLED, NOT_CONFIGURED or
NO_ACCESS sub-status makes it false. -/
theorem fully_compliant_iff_all_enabled :
    (∀ r : RepoSecurityResult,
        r.is_fully_compliant = true ↔
          (r.secret_scanning = SecurityStatus.ENABLED
            ∧ r.dependabot_alerts = SecurityStatus.ENABLED
            ∧ r.code_scanning = SecurityStatus.ENABLED))
    ∧ (∀ r : RepoSecurityResult,
        ∀ bad ∈ [SecurityStatus.UNKNOWN, SecurityStatus.DISABLED,
                 SecurityStatus.NOT_CONFIGURED, SecurityStatus.NO_ACCESS],
        (r.secret_scanning = bad ∨ r.dependabot_alerts = bad ∨ r.code_scanning = bad) →
          r.is_fully_compliant = false) := by
  constructor
  · intro r
    simp [RepoSecurityResult.is_fully_compliant, Bool.and_eq_true, beq_iff_eq, and_assoc]
  · intro r bad hbad hfield
    have hne : bad ≠ SecurityStatus.ENABLED := by
      simp only [List.mem_cons, List.not_mem_nil, or_false] at hbad
      rcases hbad with rfl | rfl | rfl | rfl <;> decide
    have hne2 : (bad == SecurityStatus.ENABLED) = false := by
      simpa using hne
    rcases hfield with hf | hf | hf <;>
      simp [RepoSecurityResult.is_fully_compliant, hf, hne2]

/-- C1 witness: a freshly constructed result (all sub-statuses UNKNOWN)
is not fully compliant. -/
theorem fully_compliant_iff_all_enabled_witness :
    ({ repository := "r" } : RepoSecurityResult).is_fully_compliant = false :=
  fully_compliant_iff_all_enabled.2 { repository := "r" } SecurityStatus.UNKNOWN
    (by decide) (Or.inl rfl)

/-- C2: at every observable point of a run (every batch boundary and
the state at return time), scanned equals compliant plus non-compliant,
scanned plus errors never exceeds the total, and the batch size (the
constant BATCH_SIZE of workflows.py) stays within 0..50. -/
theorem run_counters_invariant (org : String) (repos : List RepoInfo)
    (outcome : String → BatchItem) (cancelAt : Option (Nat × String)) (s : WfState)
    (hs : s ∈ runStates org repos outcome cancelAt) :
    s.progress.scanned_repos
        = s.progress.compliant_repos + s.progress.non_compliant_repos
    ∧ s.progress.scanned_repos + s.progress.errors ≤ s.progress.total_repos
    ∧ 0 ≤ BATCH_SIZE ∧ BATCH_SIZE ≤ 50 := by
  have htrace := scanLoopTrace_inv cancelAt (batchesOf repos outcome)
    (initState org repos) 0 (initState_invP org repos outcome)
  have hInv : Inv s := by
    rw [runStates, List.mem_append] at hs
    rcases hs with hs | hs
    · exact htrace s hs
    · simp only [List.mem_singleton] at hs
      subst hs
      have h1 : Inv (scanLoop cancelAt (initState org repos) (batchesOf repos outcome) 0) :=
        htrace _ (scanLoop_mem_trace cancelAt _ _ 0)
      rw [runScan_snd]
      apply Inv_of_progress_eq (deliverCancel_progress _ _ _)
      split
      · exact Inv_of_progress_counters rfl rfl rfl rfl rfl h1
      · exact h1
  exact ⟨hInv.1, hInv.2, Nat.zero_le _, by decide⟩

/-- C2 witness: the initial boundary state of a concrete run satisfies
the invariant. -/
theorem run_counters_invariant_witness :
    initState "o" MOCK_REPOS ∈ runStates "o" MOCK_REPOS mockOutcome none
    ∧ ((initState "o" MOCK_REPOS).progress.scanned_repos
          = (initState "o" MOCK_REPOS).progress.compliant_repos
            + (initState "o" MOCK_REPOS).progress.non_compliant_repos
        ∧ (initState "o" MOCK_REPOS).progress.scanned_repos
            + (initState "o" MOCK_REPOS).progress.errors
            ≤ (initState "o" MOCK_REPOS).progress.total_repos
        ∧ 0 ≤ BATCH_SIZE ∧ BATCH_SIZE ≤ 50) :=
  ⟨by decide,
   run_counters_invariant "o" MOCK_REPOS mockOutcome none (initState "o" MOCK_REPOS)
     (by decide)⟩

/-- C3: cancellation is boundary-only — for every run the final scan
content (results and counters) equals that of merging some prefix of
whole batches, so no batch is ever partially recorded. -/
theorem cancel_observed_only_between_batches (org : String) (repos : List RepoInfo)
    (outcome : String → BatchItem) (cancelAt : Option (Nat × String)) :
    ∃ j, j ≤ (batchesOf repos outcome).length ∧
      coreOf (runScan org repos outcome cancelAt).2 =
        coreOf (processBatches (initState org repos) ((batchesOf repos outcome).take j)) := by
  obtain ⟨j, hj, hcore⟩ :=
    scanLoop_core_take cancelAt (batchesOf repos outcome) (initState org repos) 0
  refine ⟨j, hj, ?_⟩
  rw [runScan_snd, coreOf_deliverCancel]
  split
  · exact hcore
  · exact hcore

/-- C4: a cancel signal delivered at a loop boundary strictly before
the loop ends yields status `cancelled`, a report carrying the
delivered reason, `scanned ≤ total`, and a summary generated from
exactly the results accumulated before cancellation. -/
theorem cancel_midrun_report (org : String) (repos : List RepoInfo)
    (outcome : String → BatchItem) (k : Nat) (reason : String)
    (hk : k < (batchesOf repos outcome).length) :
    (runScan org repos outcome (some (k, reason))).2.progress.status = "cancelled"
    ∧ (runScan org repos outcome (some (k, reason))).1.cancelled = some true
    ∧ (runScan org repos outcome (some (k, reason))).1.cancel_reason = some reason
    ∧ (runScan org repos outcome (some (k, reason))).2.progress.scanned_repos
        ≤ (runScan org repos outcome (some (k, reason))).2.progress.total_repos
    ∧ (runScan org repos outcome (some (k, reason))).1.summary =
        generate_report org
          ((processBatches (initState org repos)
            ((batchesOf repos outcome).take k)).results) := by
  have h0 : (initState org repos).cancel_requested = false := rfl
  have hk0 : k < 0 + (batchesOf repos outcome).length := by omega
  have hloop := scanLoop_cancels k reason (batchesOf repos outcome)
    (initState org repos) 0 h0 (Nat.zero_le k) hk0
  rw [Nat.sub_zero] at hloop
  have key : runScan org repos outcome (some (k, reason)) =
      ({ summary := generate_report org
           ((processBatches (initState org repos)
             ((batchesOf repos outcome).take k)).results)
         cancelled := some true
         cancel_reason := some reason
         repos_scanned_before_cancel := some
           ((processBatches (initState org repos)
             ((batchesOf repos outcome).take k)).progress.scanned_repos) },
       { processBatches (initState org repos) ((batchesOf repos outcome).take k) with
           cancel_requested := true
           cancel_reason := reason
           progress :=
             { (processBatches (initState org repos)
                 ((batchesOf repos outcome).take k)).progress with
                 status := "cancelled" } }) := by
    simp only [runScan]
    rw [hloop]
    simp [deliverCancel_some_eq]
  have hInvP : InvP
      (processBatches (initState org repos) ((batchesOf repos outcome).take k))
      (itemCount ((batchesOf repos outcome).drop k)) := by
    apply processBatches_invP
    have e : itemCount ((batchesOf repos outcome).drop k)
        + itemCount ((batchesOf repos outcome).take k)
        = itemCount (batchesOf repos outcome) := by
      rw [Nat.add_comm, ← itemCount_append, List.take_append_drop]
    rw [e]
    exact initState_invP org repos outcome
  rw [key]
  refine ⟨rfl, rfl, rfl, ?_, rfl⟩
  unfold InvP at hInvP
  show (processBatches (initState org repos)
      ((batchesOf repos outcome).take k)).progress.scanned_repos
    ≤ (processBatches (initState org repos)
      ((batchesOf repos outcome).take k)).progress.total_repos
  omega

/-- C4 witness: cancelling the mock run at the first boundary. -/
theorem cancel_midrun_report_witness :
    0 < (batchesOf MOCK_REPOS mockOutcome).length
    ∧ ((runScan "test-org" MOCK_REPOS mockOutcome (some (0, "stop"))).2.progress.status
          = "cancelled"
        ∧ (runScan "test-org" MOCK_REPOS mockOutcome (some (0, "stop"))).1.cancelled
          = some true
        ∧ (runScan "test-org" MOCK_REPOS mockOutcome (some (0, "stop"))).1.cancel_reason
          = some "stop"
        ∧ (runScan "test-org" MOCK_REPOS mockOutcome (some (0, "stop"))).2.progress.scanned_repos
          ≤ (runScan "test-org" MOCK_REPOS mockOutcome (some (0, "stop"))).2.progress.total_repos
        ∧ (runScan "test-org" MOCK_REPOS mockOutcome (some (0, "stop"))).1.summary =
            generate_report "test-org"
              ((processBatches (initState "test-org" MOCK_REPOS)
                ((batchesOf MOCK_REPOS mockOutcome).take 0)).results)) :=
  ⟨by decide,
   cancel_midrun_report "test-org" MOCK_REPOS mockOutcome 0 "stop" (by decide)⟩

/-- C8: the retry policy retries everything except ValueError (the
classification is exhaustive, defaulting to retryable), with initial
interval 2s, multiplier 2, cap 60s and at most 5 attempts;
fetch_org_repos raises the fatal ValueError exactly for the bad-input
statuses 404 and 401 and retryable errors otherwise; and a failed item
is recorded as one error while the batch merge proceeds. -/
theorem retry_classification :
    (GITHUB_API_RETRY.initial_interval_secs = 2
      ∧ GITHUB_API_RETRY.backoff_coefficient = 2
      ∧ GITHUB_API_RETRY.maximum_interval_secs = 60
      ∧ GITHUB_API_RETRY.maximum_attempts = 5)
    ∧ (∀ t : String, isRetryable GITHUB_API_RETRY t = false ↔ t = "ValueError")
    ∧ (fetchErrorType 404 false = some "ValueError"
      ∧ fetchErrorType 401 false = some "ValueError"
      ∧ isRetryable GITHUB_API_RETRY "ValueError" = false)
    ∧ (fetchErrorType 403 true = some "RuntimeError"
      ∧ fetchErrorType 500 false = some "ApplicationError"
      ∧ isRetryable GITHUB_API_RETRY "RuntimeError" = true
      ∧ isRetryable GITHUB_API_RETRY "ApplicationError" = true)
    ∧ (∀ (s : WfState) (b : List BatchItem),
        processBatch s (BatchItem.failed :: b) =
          processBatch
            { s with progress :=
                { s.progress with errors := s.progress.errors + 1 } } b) := by
  refine ⟨by decide, ?_, by decide, by decide, ?_⟩
  · intro t
    constructor
    · intro h
      by_contra hne
      have hb : (t == "ValueError") = false := beq_eq_false_iff_ne.mpr hne
      have hct : (["ValueError"] : List String).contains t = false := by
        simp [List.contains_cons, hb]
        exact hne
      unfold isRetryable at h
      rw [show GITHUB_API_RETRY.non_retryable_error_types = ["ValueError"] from rfl,
        hct] at h
      simp at h
    · intro h
      subst h
      decide
  · intro s b
    rfl

/-- C8 witness: ValueError is classified non-retryable. -/
theorem retry_classification_witness :
    isRetryable GITHUB_API_RETRY "ValueError" = false :=
  (retry_classification.2.1 "ValueError").mpr rfl

/-- C9: the five-repo mock scenario yields totalItems 5, fullyCompliant
2, rate "40.0%", and non-compliant list exactly repo-c and repo-d, with
repo-e excluded because it carries an error. -/
theorem mock_scenario_report :
    (runScan "test-org" MOCK_REPOS mockOutcome none).1 =
      { summary :=
          { org := "test-org"
            total_repos := 5
            fully_compliant := 2
            compliance_rate := "40.0%"
            secret_scanning_enabled := 5
            dependabot_enabled := 2
            code_scanning_enabled := 2
            errors := 1
            non_compliant_repos := ["repo-c", "repo-d"] } }
    ∧ "repo-e" ∉
        (runScan "test-org" MOCK_REPOS mockOutcome none).1.summary.non_compliant_repos := by
  constructor
  · rfl
  · decide

end Scanner

namespace Scanner

/-! ## Further helper lemmas for the continuation refinement -/

theorem successResults_append (b c : List BatchItem) :
    successResults (b ++ c) = successResults b ++ successResults c := by
  simp [successResults]

theorem processBatch_results :
    ∀ (b : List BatchItem) (s : WfState),
      (processBatch s b).results = s.results ++ successResults b
  | [], s => by simp [processBatch, successResults]
  | .ok r :: b, s => by
      show (processBatch (mergeItem s (.ok r)) b).results = _
      rw [processBatch_results b]
      simp [mergeItem, successResults]
  | .failed :: b, s => by
      show (processBatch (mergeItem s .failed) b).results = _
      rw [processBatch_results b]
      simp [mergeItem, successResults]

theorem processBatches_results :
    ∀ (bs : List (List BatchItem)) (s : WfState),
      (processBatches s bs).results = s.results ++ successResults bs.flatten
  | [], s => by simp [processBatches, successResults]
  | b :: bs, s => by
      rw [processBatches_cons, processBatches_results bs, processBatch_results]
      simp [successResults_append]

theorem scanLoop_none :
    ∀ (bs : List (List BatchItem)) (s : WfState) (i : Nat),
      s.cancel_requested = false → scanLoop none s bs i = processBatches s bs
  | [], s, i, h => by simp [scanLoop, processBatches]
  | b :: bs, s, i, h => by
      have hd : deliverCancel none i s = s := rfl
      rw [scanLoop_cons, hd, if_neg (by simp [h]), processBatches_cons]
      have hflag : (processBatch s b).cancel_requested = false := by
        rw [processBatch_cancel_requested, h]
      exact scanLoop_none bs (processBatch s b) (i + 1) hflag

theorem runScan_summary (org : String) (repos : List RepoInfo)
    (outcome : String → BatchItem) (cancelAt : Option (Nat × String)) :
    (runScan org repos outcome cancelAt).1.summary =
      generate_report org (runScan org repos outcome cancelAt).2.results := by
  have h : (runScan org repos outcome cancelAt).1 =
      (if (runScan org repos outcome cancelAt).2.cancel_requested then
        ({ summary := generate_report org (runScan org repos outcome cancelAt).2.results
           cancelled := some true
           cancel_reason := some (runScan org repos outcome cancelAt).2.cancel_reason
           repos_scanned_before_cancel :=
             some (runScan org repos outcome cancelAt).2.progress.scanned_repos } : FinalReport)
       else { summary := generate_report org (runScan org repos outcome cancelAt).2.results }) :=
    rfl
  rw [h]
  split <;> rfl

theorem runScan_results_none (org : String) (repos : List RepoInfo)
    (outcome : String → BatchItem) :
    (runScan org repos outcome none).2.results =
      successResults (batchesOf repos outcome).flatten := by
  rw [runScan_snd, deliverCancel_results,
    scanLoop_none (batchesOf repos outcome) (initState org repos) 0 rfl]
  split
  · show (processBatches (initState org repos) (batchesOf repos outcome)).results = _
    rw [processBatches_results]
    rfl
  · rw [processBatches_results]
    rfl

end Scanner

namespace SpecModel

open Scanner

/-! ## Helper lemmas for the spec-modelled control plane -/

theorem mergeCounts_pause_requested (s : OrchState) (b : List BatchItem) :
    (mergeCounts s b).pause_requested = s.pause_requested := rfl

theorem deliverPause_miss (k : Nat) (d : Int) (i : Nat) (s : OrchState)
    (h : k ≠ i) : deliverPause (some (k, d)) i s = s := by
  show (if k = i then pause_scan s d else s) = s
  rw [if_neg h]

theorem specLoop_noFire (k : Nat) (d : Int) :
    ∀ (bs : List (List BatchItem)) (s : OrchState) (i : Nat),
      k < i → s.pause_requested = false →
      (specLoop (some (k, d)) s bs i).2 =
        bs.map (fun b => Event.batchMerged b.length)
  | [], s, i, hk, hp => rfl
  | b :: bs, s, i, hk, hp => by
      have hd := deliverPause_miss k d i s (by omega)
      have hrec := specLoop_noFire k d bs (mergeCounts s b) (i + 1) (by omega)
        (by rw [mergeCounts_pause_requested, hp])
      simp only [specLoop, hd, hp, if_false, Bool.false_eq_true, hrec]
      simp

theorem specLoop_flag_cleared (pauseAt : Option (Nat × Int)) :
    ∀ (bs : List (List BatchItem)) (s : OrchState) (i : Nat),
      s.pause_requested = false →
      ((specLoop pauseAt s bs i).1).pause_requested = false
  | [], s, i, hp => hp
  | b :: bs, s, i, hp => by
      by_cases hfire : (deliverPause pauseAt i s).pause_requested
      · have h1 : ((pauseStep (deliverPause pauseAt i s)).1).pause_requested = false := rfl
        have h2 : ((mergeCounts (pauseStep (deliverPause pauseAt i s)).1 b)).pause_requested
            = false := by rw [mergeCounts_pause_requested, h1]
        simp only [specLoop, hfire, if_true]
        exact specLoop_flag_cleared pauseAt bs _ (i + 1) h2
      · have h2 : ((mergeCounts (deliverPause pauseAt i s) b)).pause_requested = false := by
          rw [mergeCounts_pause_requested]
          simpa using hfire
        simp only [specLoop, hfire, if_false, Bool.false_eq_true]
        exact specLoop_flag_cleared pauseAt bs _ (i + 1) h2

theorem specLoop_pause_events (k : Nat) (d : Int) :
    ∀ (bs : List (List BatchItem)) (s : OrchState) (i : Nat),
      s.pause_requested = false → i ≤ k → k < i + bs.length →
      (specLoop (some (k, d)) s bs i).2 =
        ((bs.take (k - i)).map (fun b => Event.batchMerged b.length))
        ++ [Event.statusSet "paused", Event.timerStarted (max 1 d), Event.timerFired,
            Event.statusSet "scanning"]
        ++ ((bs.drop (k - i)).map (fun b => Event.batchMerged b.length))
  | [], s, i, hp, hik, hlt => by
      exfalso
      simp at hlt
      omega
  | b :: bs, s, i, hp, hik, hlt => by
      by_cases hki : k ≤ i
      · have hk : k = i := Nat.le_antisymm hki hik
        have hd : deliverPause (some (k, d)) i s = pause_scan s d := by
          show (if k = i then pause_scan s d else s) = _
          rw [if_pos hk]
        have hfire : (pause_scan s d).pause_requested = true := rfl
        have hdur : (pause_scan s d).pause_duration_secs = max 1 d := rfl
        have hstep1 : ((pauseStep (pause_scan s d)).1).pause_requested = false := rfl
        have hmerge : ((mergeCounts (pauseStep (pause_scan s d)).1 b)).pause_requested
            = false := by rw [mergeCounts_pause_requested, hstep1]
        have hrec := specLoop_noFire k d bs (mergeCounts (pauseStep (pause_scan s d)).1 b)
          (i + 1) (by omega) hmerge
        have htake : k - i = 0 := by omega
        simp only [specLoop, hd, hfire, if_true, hrec, htake, List.take_zero,
          List.drop_zero]
        simp [pauseStep, hdur]
      · have hd := deliverPause_miss k d i s (by omega)
        have hmerge : ((mergeCounts s b)).pause_requested = false := by
          rw [mergeCounts_pause_requested, hp]
        have hik1 : i + 1 ≤ k := by omega
        have hlt1 : k < (i + 1) + bs.length := by
          simp at hlt
          omega
        have hrec := specLoop_pause_events k d bs (mergeCounts s b) (i + 1) hmerge hik1 hlt1
        have h1 : k - i = (k - (i + 1)) + 1 := by omega
        simp only [specLoop, hd, hp, if_false, Bool.false_eq_true, hrec, h1,
          List.take_succ_cons, List.drop_succ_cons]
        simp

end SpecModel

namespace SpecModel

open Scanner

/-! ## Claim theorems: control plane and continuation -/

/-- C5: updateBatchSize runs its validator strictly before any
mutation: an out-of-range `n` or a request against a terminal scan is
rejected, the entire scan state is returned unchanged, and the caller
synchronously receives a descriptive error; on acceptance `batch_size`
becomes `n` and a confirmation string is returned. -/
theorem update_batch_size_validated (s : OrchState) (n : Int) :
    ((n < 1 ∨ 50 < n ∨ s.status ∈ TERMINAL_STATUSES) →
      (∃ err, (update_batch_size s n).1 = .rejected err)
      ∧ (update_batch_size s n).2 = s)
    ∧ ((1 ≤ n ∧ n ≤ 50 ∧ s.status ∉ TERMINAL_STATUSES) →
      (update_batch_size s n).1 = .accepted ("Batch size updated to " ++ toString n)
      ∧ (update_batch_size s n).2 = { s with batch_size := n }) := by
  unfold update_batch_size
  constructor
  · intro h
    by_cases h1 : n < 1 ∨ 50 < n
    · rw [if_pos h1]
      exact ⟨⟨_, rfl⟩, rfl⟩
    · rw [if_neg h1]
      have h2 : s.status ∈ TERMINAL_STATUSES := by
        rcases h with h | h | h
        · exact absurd (Or.inl h) h1
        · exact absurd (Or.inr h) h1
        · exact h
      rw [if_pos h2]
      exact ⟨⟨_, rfl⟩, rfl⟩
  · rintro ⟨hge, hle, hmem⟩
    rw [if_neg (by omega), if_neg hmem]
    exact ⟨rfl, rfl⟩

/-- C5 witness: updateBatchSize(0) against a scanning state is rejected
and leaves the state untouched. -/
theorem update_batch_size_validated_witness :
    ((0 : Int) < 1 ∨ 50 < (0 : Int) ∨ demoOrchState.status ∈ TERMINAL_STATUSES)
    ∧ ((∃ err, (update_batch_size demoOrchState 0).1 = .rejected err)
        ∧ (update_batch_size demoOrchState 0).2 = demoOrchState) :=
  ⟨Or.inl (by decide),
   (update_batch_size_validated demoOrchState 0).1 (Or.inl (by decide))⟩

/-- C6: when a pause signal with duration d ≥ 1 is delivered at loop
boundary k of a run with batches remaining, the orchestrator emits, at
exactly that boundary, status PAUSED, a durable timer start for d, the
timer firing, and the resumption of SCANNING, after which the remaining
batches are processed and the pause flag ends cleared. -/
theorem pause_durable_timer (s : OrchState) (bs : List (List BatchItem))
    (k : Nat) (d : Int) (hflag : s.pause_requested = false) (hd : 1 ≤ d)
    (hk : k < bs.length) :
    (specLoop (some (k, d)) s bs 0).2 =
      ((bs.take k).map (fun b => Event.batchMerged b.length))
      ++ [Event.statusSet "paused", Event.timerStarted d, Event.timerFired,
          Event.statusSet "scanning"]
      ++ ((bs.drop k).map (fun b => Event.batchMerged b.length))
    ∧ ((specLoop (some (k, d)) s bs 0).1).pause_requested = false := by
  have hmax : max 1 d = d := max_eq_right hd
  constructor
  · have h := specLoop_pause_events k d bs s 0 hflag (Nat.zero_le k) (by omega)
    rw [Nat.sub_zero, hmax] at h
    exact h
  · exact specLoop_flag_cleared _ bs s 0 hflag

/-- C6 witness: pausing a two-batch run for 30 seconds at boundary 1. -/
theorem pause_durable_timer_witness :
    (demoOrchState.pause_requested = false ∧ (1 : Int) ≤ 30
      ∧ 1 < ([[Scanner.BatchItem.failed], [Scanner.BatchItem.failed]]
              : List (List Scanner.BatchItem)).length)
    ∧ ((specLoop (some (1, 30)) demoOrchState
          [[Scanner.BatchItem.failed], [Scanner.BatchItem.failed]] 0).2 =
        (([[Scanner.BatchItem.failed], [Scanner.BatchItem.failed]].take 1).map
          (fun b => Event.batchMerged b.length))
        ++ [Event.statusSet "paused", Event.timerStarted 30, Event.timerFired,
            Event.statusSet "scanning"]
        ++ (([[Scanner.BatchItem.failed], [Scanner.BatchItem.failed]].drop 1).map
          (fun b => Event.batchMerged b.length))
      ∧ ((specLoop (some (1, 30)) demoOrchState
          [[Scanner.BatchItem.failed], [Scanner.BatchItem.failed]] 0).1).pause_requested
          = false) :=
  ⟨⟨rfl, by decide, by decide⟩,
   pause_durable_timer demoOrchState [[Scanner.BatchItem.failed], [Scanner.BatchItem.failed]]
     1 30 rfl (by decide) (by decide)⟩

theorem contRun_results (thr : Nat) :
    ∀ (bs : List (List BatchItem)) (cc since : Nat)
      (acc : List RepoSecurityResult) (errs : Nat),
      (contRun thr cc since acc errs bs).1 = acc ++ successResults bs.flatten
  | [], cc, since, acc, errs => by simp [contRun, successResults]
  | b :: bs, cc, since, acc, errs => by
      unfold contRun
      split <;>
        rw [contRun_results thr bs] <;>
        simp [successResults_append]

/-- C7 counterexample: over the same two batches with the same
outcomes, the scan that continues once (threshold 1) and the scan that
never continues (threshold 3) produce different final reports — they
disagree on the continue_as_new_count carried in the result. -/
theorem continuation_report_not_identical :
    contReport "o" 1
        [[Scanner.BatchItem.ok { repository := "a" }],
         [Scanner.BatchItem.ok { repository := "b" }]]
      ≠ contReport "o" 3
        [[Scanner.BatchItem.ok { repository := "a" }],
         [Scanner.BatchItem.ok { repository := "b" }]] := by
  decide

/-- C7 amended: continuation is unobservable in the scan content — for
every resource set, fixed outcomes and continuation threshold, the
continuing scan's summary is identical to the summary of the
src-workflow run that never continues; only the continuation count
differs. -/
theorem continuation_preserves_summary (org : String) (repos : List RepoInfo)
    (outcome : String → BatchItem) (thr : Nat) :
    (contReport org thr (batchesOf repos outcome)).summary =
      (runScan org repos outcome none).1.summary := by
  show generate_report org (contRun thr 0 0 [] 0 (batchesOf repos outcome)).1 = _
  rw [contRun_results, runScan_summary, runScan_results_none]
  simp

end SpecModel

namespace Encryption

/-! ## Claim theorems: the encryption codec -/

theorem take_len_append : ∀ (l₁ l₂ : List α), (l₁ ++ l₂).take l₁.length = l₁
  | [], l₂ => rfl
  | x :: l₁, l₂ => by
      simp [take_len_append l₁ l₂]

theorem drop_len_append : ∀ (l₁ l₂ : List α), (l₁ ++ l₂).drop l₁.length = l₂
  | [], l₂ => rfl
  | x :: l₁, l₂ => by
      simp [drop_len_append l₁ l₂]

theorem parse0_serialize0 (p : Payload) : parse0 (serialize0 p) = p := by
  obtain ⟨enc, dat⟩ := p
  unfold parse0 serialize0
  simp [take_len_append, drop_len_append]

/-- C10: decoding the result of encoding with the same key is the
identity on payload lists — for any Fernet pair and protobuf pair
satisfying their left-inverse laws, every payload comes back with its
original data and original encoding marker. -/
theorem decode_encode_id (encrypt decrypt : List Nat → List Nat)
    (serialize : Payload → List Nat) (parse : List Nat → Payload)
    (hfernet : ∀ b, decrypt (encrypt b) = b)
    (hproto : ∀ p, parse (serialize p) = p) (payloads : List Payload) :
    codecDecode decrypt parse (codecEncode encrypt serialize payloads) = payloads := by
  unfold codecEncode codecDecode
  rw [List.map_map]
  have h : ((fun p => if p.encoding = ENCODING_MARKER then parse (decrypt p.data) else p)
      ∘ (fun p => ({ encoding := ENCODING_MARKER, data := encrypt (serialize p) } : Payload)))
      = fun p => p := by
    funext p
    simp [Function.comp, hfernet, hproto]
  rw [h]
  exact List.map_id payloads

/-- C10 witness: a concrete two-payload list survives the roundtrip
under concrete collaborators. -/
theorem decode_encode_id_witness :
    codecDecode decrypt0 parse0 (codecEncode encrypt0 serialize0
      [{ encoding := ENCODING_MARKER, data := [1, 2] },
       { encoding := [], data := [3] }]) =
      [{ encoding := ENCODING_MARKER, data := [1, 2] },
       { encoding := [], data := [3] }] :=
  decode_encode_id encrypt0 decrypt0 serialize0 parse0
    (fun _ => rfl) parse0_serialize0
    [{ encoding := ENCODING_MARKER, data := [1, 2] },
     { encoding := [], data := [3] }]

end Encryption
